import Mathlib

/-!
Verification development for the YAML-backed `AdminServiceStore`
(`libsplinter/src/admin/store/yaml/mod.rs`).

The Rust store keeps four `BTreeMap`-based tables (nodes, circuits, proposals,
and a derived service directory) behind one lock, persists them to two YAML
files, and converts between an in-memory record shape and an on-disk (wire)
shape for circuits and services.  Here the tables are embedded as
association-list maps (`Bmap`), the store operations as explicit
state-passing functions returning a result together with the post-state, and
the per-operation file persistence as a `WriteSet` value recording which of
the two files the operation rewrites.
-/

/-- Association-list model of `std::collections::BTreeMap`.  Entries are kept
as a plain list; lookup, insert (replace-or-append) and remove agree with
`BTreeMap` on every well-formed (key-unique) state.  Iteration order is
abstracted: no verified property below depends on the sortedness of the
underlying tree, only on the key-value mapping. -/
structure Bmap (κ α : Type) where
  entries : List (κ × α)
deriving DecidableEq

namespace Bmap

variable {κ α β : Type} [DecidableEq κ]

/-- Entry-level lookup: first entry with the given key, `BTreeMap::get`. -/
def getE : List (κ × α) → κ → Option α
  | [], _ => none
  | p :: t, k => if p.1 = k then some p.2 else getE t k

/-- Entry-level insert: replace the entry holding the key, or append a new
entry, `BTreeMap::insert`. -/
def insertE : List (κ × α) → κ → α → List (κ × α)
  | [], k, v => [(k, v)]
  | p :: t, k, v => if p.1 = k then (k, v) :: t else p :: insertE t k v

/-- Entry-level removal of the entries holding the key, `BTreeMap::remove`
(on a key-unique state at most one entry is dropped). -/
def removeE : List (κ × α) → κ → List (κ × α)
  | [], _ => []
  | p :: t, k => if p.1 = k then removeE t k else p :: removeE t k

def get (m : Bmap κ α) (k : κ) : Option α := getE m.entries k

def insert (m : Bmap κ α) (k : κ) (v : α) : Bmap κ α := ⟨insertE m.entries k v⟩

def remove (m : Bmap κ α) (k : κ) : Bmap κ α := ⟨removeE m.entries k⟩

/-- `BTreeMap::contains_key`. -/
def containsKey (m : Bmap κ α) (k : κ) : Bool := (m.get k).isSome

/-- The values of the map, in entry order (`BTreeMap` iteration). -/
def values (m : Bmap κ α) : List α := m.entries.map Prod.snd

/-- Collecting a pair iterator into a `BTreeMap`: fold of inserts. -/
def collect (l : List (κ × α)) : Bmap κ α :=
  l.foldl (fun m p => m.insert p.1 p.2) ⟨[]⟩

/-- Representation invariant of a `BTreeMap` value: pairwise distinct keys. -/
def WF (m : Bmap κ α) : Prop := (m.entries.map Prod.fst).Nodup

instance (m : Bmap κ α) : Decidable (WF m) := by
  unfold WF; infer_instance

theorem getE_insertE_self (l : List (κ × α)) (k : κ) (v : α) :
    getE (insertE l k v) k = some v := by
  induction l with
  | nil => simp [insertE, getE]
  | cons p t ih =>
    by_cases h : p.1 = k
    · simp [insertE, h, getE]
    · simp [insertE, h, getE, ih]

theorem getE_insertE_ne (l : List (κ × α)) (k k' : κ) (v : α) (h : k' ≠ k) :
    getE (insertE l k v) k' = getE l k' := by
  induction l with
  | nil =>
    have hk : ¬(k = k') := fun hh => h hh.symm
    simp [insertE, getE, hk]
  | cons p t ih =>
    by_cases hp : p.1 = k
    · have hk : ¬(k = k') := fun hh => h hh.symm
      have hp' : ¬(p.1 = k') := by rw [hp]; exact hk
      simp [insertE, hp, getE, hk, hp']
    · by_cases hq : p.1 = k'
      · simp [insertE, hp, getE, hq, h]
      · simp [insertE, hp, getE, hq, ih]

theorem getE_removeE_self (l : List (κ × α)) (k : κ) :
    getE (removeE l k) k = none := by
  induction l with
  | nil => simp [removeE, getE]
  | cons p t ih =>
    by_cases h : p.1 = k
    · simp [removeE, h, ih]
    · simp [removeE, h, getE, ih]

theorem getE_removeE_ne (l : List (κ × α)) (k k' : κ) (h : k' ≠ k) :
    getE (removeE l k) k' = getE l k' := by
  induction l with
  | nil => simp [removeE]
  | cons p t ih =>
    by_cases hp : p.1 = k
    · have hk : ¬(k = k') := fun hh => h hh.symm
      simp [removeE, hp, getE, hk, ih]
    · simp [removeE, hp, getE, ih]

theorem getE_append_right (l1 l2 : List (κ × α)) (k : κ) (h : getE l1 k = none) :
    getE (l1 ++ l2) k = getE l2 k := by
  induction l1 with
  | nil => simp
  | cons p t ih =>
    by_cases hp : p.1 = k
    · simp [getE, hp] at h
    · simp [getE, hp] at h ⊢
      exact ih h

theorem insertE_of_getE_none (l : List (κ × α)) (k : κ) (v : α) (h : getE l k = none) :
    insertE l k v = l ++ [(k, v)] := by
  induction l with
  | nil => simp [insertE]
  | cons p t ih =>
    by_cases hp : p.1 = k
    · simp [getE, hp] at h
    · simp [getE, hp] at h
      simp [insertE, hp, ih h]

theorem get_insert_self (m : Bmap κ α) (k : κ) (v : α) :
    (m.insert k v).get k = some v := getE_insertE_self m.entries k v

theorem get_insert_ne (m : Bmap κ α) (k k' : κ) (v : α) (h : k' ≠ k) :
    (m.insert k v).get k' = m.get k' := getE_insertE_ne m.entries k k' v h

theorem get_remove_self (m : Bmap κ α) (k : κ) :
    (m.remove k).get k = none := getE_removeE_self m.entries k

theorem get_remove_ne (m : Bmap κ α) (k k' : κ) (h : k' ≠ k) :
    (m.remove k).get k' = m.get k' := getE_removeE_ne m.entries k k' h

theorem get_remove_none (m : Bmap κ α) (k k' : κ) (h : m.get k' = none) :
    (m.remove k).get k' = none := by
  by_cases hk : k' = k
  · subst hk; exact get_remove_self m k'
  · rw [get_remove_ne m k k' hk]; exact h

theorem contains_eq_isSome_get (m : Bmap κ α) (k : κ) :
    m.containsKey k = (m.get k).isSome := rfl

theorem contains_of_get_some (m : Bmap κ α) (k : κ) (v : α) (h : m.get k = some v) :
    m.containsKey k = true := by
  simp [containsKey, h]

theorem get_some_of_contains (m : Bmap κ α) (k : κ) (h : m.containsKey k = true) :
    ∃ v, m.get k = some v := by
  simpa [containsKey, Option.isSome_iff_exists] using h

theorem foldl_insertE_of_nodup (l : List (κ × α)) (acc : List (κ × α))
    (hd : ∀ p ∈ l, getE acc p.1 = none) (hn : (l.map Prod.fst).Nodup) :
    l.foldl (fun e p => insertE e p.1 p.2) acc = acc ++ l := by
  induction l generalizing acc with
  | nil => simp
  | cons p t ih =>
    have h1 : getE acc p.1 = none := hd p (List.mem_cons_self p t)
    rw [List.foldl_cons, insertE_of_getE_none acc p.1 p.2 h1]
    rw [List.map_cons] at hn
    have hn' := List.nodup_cons.mp hn
    have hd' : ∀ q ∈ t, getE (acc ++ [p]) q.1 = none := by
      intro q hq
      have hne : ¬(p.1 = q.1) := by
        intro hh
        exact hn'.1 (hh ▸ List.mem_map_of_mem Prod.fst hq)
      rw [getE_append_right acc [p] q.1 (hd q (List.mem_cons_of_mem p hq))]
      simp [getE, hne]
    rw [ih (acc ++ [p]) hd' hn'.2]
    simp

theorem collect_entries (l : List (κ × α)) (m0 : Bmap κ α) :
    (l.foldl (fun m p => m.insert p.1 p.2) m0).entries
      = l.foldl (fun e p => insertE e p.1 p.2) m0.entries := by
  induction l generalizing m0 with
  | nil => rfl
  | cons p t ih => simpa [insert] using ih (m0.insert p.1 p.2)

theorem collect_of_nodup (l : List (κ × α)) (hn : (l.map Prod.fst).Nodup) :
    collect l = ⟨l⟩ := by
  unfold collect
  have h := collect_entries l (⟨[]⟩ : Bmap κ α)
  have h2 := foldl_insertE_of_nodup l [] (fun p _ => rfl) hn
  have : (l.foldl (fun m p => m.insert p.1 p.2) (⟨[]⟩ : Bmap κ α)).entries = l := by
    rw [h, h2]; simp
  cases hres : l.foldl (fun m p => m.insert p.1 p.2) (⟨[]⟩ : Bmap κ α) with
  | mk e => simp [hres] at this; simp [this]

theorem getE_of_mem_nodup (l : List (κ × α)) (hn : (l.map Prod.fst).Nodup)
    (k : κ) (v : α) (h : (k, v) ∈ l) : getE l k = some v := by
  induction l with
  | nil => cases h
  | cons p t ih =>
    rcases List.mem_cons.mp h with rfl | h'
    · simp [getE]
    · rw [List.map_cons] at hn
      have hn' := List.nodup_cons.mp hn
      have hne : ¬(p.1 = k) := by
        intro hh
        exact hn'.1 (hh ▸ List.mem_map_of_mem Prod.fst h')
      simp [getE, hne, ih hn'.2 h']

theorem get_of_mem_nodup (m : Bmap κ α) (hn : m.WF) (k : κ) (v : α)
    (h : (k, v) ∈ m.entries) : m.get k = some v :=
  getE_of_mem_nodup m.entries hn k v h

theorem get_foldl_insert_of_forbidden (l : List β) (kf : β → κ) (vf : β → α)
    (d : Bmap κ α) (k : κ) (h : ∀ x ∈ l, kf x ≠ k) :
    (l.foldl (fun d x => d.insert (kf x) (vf x)) d).get k = d.get k := by
  induction l generalizing d with
  | nil => rfl
  | cons b t ih =>
    rw [List.foldl_cons, ih _ (fun x hx => h x (List.mem_cons_of_mem b hx))]
    exact get_insert_ne d (kf b) k (vf b)
      (fun hh => (h b (List.mem_cons_self b t)) hh.symm)

theorem get_foldl_insert_mem (l : List β) (kf : β → κ) (vf : β → α)
    (d : Bmap κ α) (hn : (l.map kf).Nodup) (x : β) (hx : x ∈ l) :
    (l.foldl (fun d y => d.insert (kf y) (vf y)) d).get (kf x) = some (vf x) := by
  induction l generalizing d with
  | nil => cases hx
  | cons b t ih =>
    rw [List.map_cons] at hn
    have hn' := List.nodup_cons.mp hn
    rw [List.foldl_cons]
    rcases List.mem_cons.mp hx with rfl | hx'
    · have hforb : ∀ y ∈ t, kf y ≠ kf x := by
        intro y hy heq
        exact hn'.1 (heq ▸ List.mem_map_of_mem kf hy)
      rw [get_foldl_insert_of_forbidden t kf vf _ _ hforb]
      exact get_insert_self d (kf x) (vf x)
    · exact ih _ hn'.2 hx'

theorem get_foldl_remove_none (l : List β) (kf : β → κ) (d : Bmap κ α) (k : κ)
    (h : d.get k = none) :
    (l.foldl (fun m y => m.remove (kf y)) d).get k = none := by
  induction l generalizing d with
  | nil => exact h
  | cons b t ih =>
    rw [List.foldl_cons]
    exact ih _ (get_remove_none d (kf b) k h)

theorem get_foldl_remove_mem (l : List β) (kf : β → κ) (d : Bmap κ α)
    (x : β) (hx : x ∈ l) :
    (l.foldl (fun m y => m.remove (kf y)) d).get (kf x) = none := by
  induction l generalizing d with
  | nil => cases hx
  | cons b t ih =>
    rw [List.foldl_cons]
    rcases List.mem_cons.mp hx with rfl | hx'
    · exact get_foldl_remove_none t kf _ (kf x) (get_remove_self d (kf x))
    · exact ih _ hx'

theorem get_foldl_condInsert_some (l : List β) (kf : β → κ) (vf : β → α)
    (d : Bmap κ α) (k : κ) (v : α) (h : d.get k = some v) :
    (l.foldl (fun m y => if m.containsKey (kf y) then m else m.insert (kf y) (vf y)) d).get k
      = some v := by
  induction l generalizing d with
  | nil => exact h
  | cons b t ih =>
    rw [List.foldl_cons]
    by_cases hc : d.containsKey (kf b)
    · simp only [hc, if_true]
      exact ih _ h
    · simp only [hc, Bool.false_eq_true, if_false]
      apply ih
      by_cases hk : kf b = k
      · subst hk
        exact absurd (contains_of_get_some d (kf b) v h) hc
      · rw [get_insert_ne d (kf b) k (vf b) (fun hh => hk hh.symm)]
        exact h

theorem contains_foldl_condInsert_of_contains (l : List β) (kf : β → κ) (vf : β → α)
    (d : Bmap κ α) (k : κ) (h : d.containsKey k = true) :
    (l.foldl (fun m y => if m.containsKey (kf y) then m else m.insert (kf y) (vf y)) d).containsKey k
      = true := by
  obtain ⟨v, hv⟩ := get_some_of_contains d k h
  exact contains_of_get_some _ k v (get_foldl_condInsert_some l kf vf d k v hv)

theorem contains_foldl_condInsert_mem (l : List β) (kf : β → κ) (vf : β → α)
    (d : Bmap κ α) (x : β) (hx : x ∈ l) :
    (l.foldl (fun m y => if m.containsKey (kf y) then m else m.insert (kf y) (vf y)) d).containsKey (kf x)
      = true := by
  induction l generalizing d with
  | nil => cases hx
  | cons b t ih =>
    rw [List.foldl_cons]
    rcases List.mem_cons.mp hx with rfl | hx'
    · by_cases hc : d.containsKey (kf x)
      · simp only [hc, if_true]
        exact contains_foldl_condInsert_of_contains t kf vf d (kf x) hc
      · simp only [hc, Bool.false_eq_true, if_false]
        exact contains_foldl_condInsert_of_contains t kf vf _ (kf x)
          (contains_of_get_some _ (kf x) (vf x) (get_insert_self d (kf x) (vf x)))
    · exact ih _ hx'

theorem get_foldl_condInsert_absent (l : List β) (kf : β → κ) (vf : β → α)
    (d : Bmap κ α) (hn : (l.map kf).Nodup) (x : β) (hx : x ∈ l)
    (h : d.get (kf x) = none) :
    (l.foldl (fun m y => if m.containsKey (kf y) then m else m.insert (kf y) (vf y)) d).get (kf x)
      = some (vf x) := by
  induction l generalizing d with
  | nil => cases hx
  | cons b t ih =>
    rw [List.map_cons] at hn
    have hn' := List.nodup_cons.mp hn
    rw [List.foldl_cons]
    rcases List.mem_cons.mp hx with rfl | hx'
    · have hc : d.containsKey (kf x) = false := by
        simp [containsKey, h]
      simp only [hc, Bool.false_eq_true, if_false]
      exact get_foldl_condInsert_some t kf vf _ (kf x) (vf x)
        (get_insert_self d (kf x) (vf x))
    · have hne : kf b ≠ kf x := by
        intro heq
        exact hn'.1 (heq ▸ List.mem_map_of_mem kf hx')
      by_cases hc : d.containsKey (kf b)
      · simp only [hc, if_true]
        exact ih _ hn'.2 hx' h
      · simp only [hc, Bool.false_eq_true, if_false]
        refine ih _ hn'.2 hx' ?_
        rw [get_insert_ne d (kf b) (kf x) (vf b) (fun hh => hne hh.symm)]
        exact h

end Bmap

/-- Mapping values of a pair list leaves the keys unchanged. -/
theorem map_fst_map_value {κ α β : Type} (l : List (κ × α)) (f : α → β) :
    ((l.map (fun p => (p.1, f p.2))).map Prod.fst) = l.map Prod.fst := by
  induction l with
  | nil => rfl
  | cons p t ih => simp [ih]

/-- Re-pairing the components of a pair is the identity map. -/
theorem map_pair_eta {κ α : Type} (l : List (κ × α)) :
    l.map (fun p => (p.1, p.2)) = l := by
  induction l with
  | nil => rfl
  | cons p t ih => simp [ih]

/-- Modelled from the spec: the circuit authorization policy enumeration.
Its definition lives outside `src/` (admin store entity types); the store
only copies the value, so the constructor set is immaterial here. -/
inductive AuthorizationType
  | Trust
deriving DecidableEq

/-- Modelled from the spec: the circuit persistence policy enumeration
(external to `src/`; only copied by the store). -/
inductive PersistenceType
  | Any
deriving DecidableEq

/-- Modelled from the spec: the circuit durability policy enumeration
(external to `src/`; only copied by the store). -/
inductive DurabilityType
  | NoDurability
deriving DecidableEq

/-- Modelled from the spec: the circuit routing policy enumeration
(external to `src/`; only copied by the store). -/
inductive RouteType
  | Any
deriving DecidableEq

/-- Modelled from the spec: a network participant, identified by id and
reachable endpoints (`CircuitNode`, declared outside `src/`). -/
structure CircuitNode where
  id : String
  endpoints : List String
deriving DecidableEq

/-- Modelled from the spec: the in-memory/API `Service` record, declared
outside `src/`: local service id, service-type string, allowed node ids, and
an unordered key-to-value argument mapping (spec section 3). -/
structure Service where
  service_id : String
  service_type : String
  allowed_nodes : List String
  arguments : Bmap String String
deriving DecidableEq

/-- Modelled from the spec: the in-memory/API `Circuit` record, declared
outside `src/`: id, service roster, ordered member node identifiers, the
four policy fields and a management-type string (spec section 3). -/
structure Circuit where
  id : String
  roster : List Service
  members : List String
  auth : AuthorizationType
  persistence : PersistenceType
  durability : DurabilityType
  routes : RouteType
  circuit_management_type : String
deriving DecidableEq

/-- Modelled from the spec: the composite service lookup key, a local
service id paired with the owning circuit id (`ServiceId::new(service_id,
circuit_id)`); declared outside `src/`. -/
structure ServiceId where
  service_id : String
  circuit_id : String
deriving DecidableEq

/-- Modelled from the spec: vote decision carried by a vote record
(external to `src/`; only stored). -/
inductive Vote
  | Accept
  | Reject
deriving DecidableEq

/-- Modelled from the spec: an accumulated vote record of a proposal
(external to `src/`; only stored). -/
structure VoteRecord where
  public_key : String
  vote : Vote
  voter_node_id : String
deriving DecidableEq

/-- Modelled from the spec: proposal type, create or other (external to
`src/`; only stored). -/
inductive ProposalType
  | Create
  | Other
deriving DecidableEq

/-- Modelled from the spec: a proposed service inside a proposal's embedded
circuit; its arguments are the explicit ordered key-value pair list wire
variant (spec sections 3 and 4.2). Declared outside `src/`. -/
structure ProposedService where
  service_id : String
  service_type : String
  allowed_nodes : List String
  arguments : List (String × String)
deriving DecidableEq

/-- Modelled from the spec: a proposed member node inside a proposal's
embedded circuit (node id plus endpoints). Declared outside `src/`. -/
structure ProposedNode where
  node_id : String
  endpoints : List String
deriving DecidableEq

/-- Modelled from the spec: the embedded proposed-circuit definition of a
proposal (own roster/member representation, pre-creation). Declared outside
`src/`; field set follows the proposal-file document of section 6. -/
structure ProposedCircuit where
  circuit_id : String
  roster : List ProposedService
  members : List ProposedNode
  authorization_type : AuthorizationType
  persistence : PersistenceType
  durability : DurabilityType
  routes : RouteType
  circuit_management_type : String
  application_metadata : String
  comments : String
deriving DecidableEq

/-- Modelled from the spec: a pending circuit proposal: prospective circuit
id, hash of the proposed content, embedded proposed circuit, proposal type,
requester identity, requesting node id and vote records (spec section 3).
Declared outside `src/`. -/
structure CircuitProposal where
  proposal_type : ProposalType
  circuit_id : String
  circuit_hash : String
  circuit : ProposedCircuit
  votes : List VoteRecord
  requester : String
  requester_node_id : String
deriving DecidableEq

/-- YAML file specific service definition (`YamlService` in `src/`): the
0.4v YAML schema stores service arguments in a map format
(`BTreeMap<String, String>`). -/
structure YamlService where
  service_id : String
  service_type : String
  allowed_nodes : List String
  arguments : Bmap String String
deriving DecidableEq

/-- YAML file specific circuit definition (`YamlCircuit` in `src/`). -/
structure YamlCircuit where
  id : String
  roster : List YamlService
  members : List String
  auth : AuthorizationType
  persistence : PersistenceType
  durability : DurabilityType
  routes : RouteType
  circuit_management_type : String
deriving DecidableEq

/-- `impl From<YamlService> for Service`: every field maps over, the
argument entries are re-collected into the in-memory mapping. -/
def Service.from_yaml (service : YamlService) : Service :=
  { service_id := service.service_id
    service_type := service.service_type
    allowed_nodes := service.allowed_nodes
    arguments := Bmap.collect (service.arguments.entries.map (fun p => (p.1, p.2))) }

/-- `impl From<Service> for YamlService`: every field maps over, the
argument entries are re-collected into the wire mapping. -/
def YamlService.from_service (service : Service) : YamlService :=
  { service_id := service.service_id
    service_type := service.service_type
    allowed_nodes := service.allowed_nodes
    arguments := Bmap.collect (service.arguments.entries.map (fun p => (p.1, p.2))) }

/-- `impl From<YamlCircuit> for Circuit`: roster services are converted,
all other fields map 1:1. -/
def Circuit.from_yaml (circuit : YamlCircuit) : Circuit :=
  { id := circuit.id
    roster := circuit.roster.map Service.from_yaml
    members := circuit.members
    auth := circuit.auth
    persistence := circuit.persistence
    durability := circuit.durability
    routes := circuit.routes
    circuit_management_type := circuit.circuit_management_type }

/-- `impl From<Circuit> for YamlCircuit`: roster services are converted,
all other fields map 1:1. -/
def YamlCircuit.from_circuit (circuit : Circuit) : YamlCircuit :=
  { id := circuit.id
    roster := circuit.roster.map YamlService.from_service
    members := circuit.members
    auth := circuit.auth
    persistence := circuit.persistence
    durability := circuit.durability
    routes := circuit.routes
    circuit_management_type := circuit.circuit_management_type }

/-- Modelled from the spec: `impl From<ProposedService> for Service` (used
by `upgrade_proposal_to_circuit`; the impl lives outside `src/`).  The
adapter accepts the ordered pair-list wire variant and collects it into the
keyed in-memory mapping without losing or duplicating keys. -/
def Service.from_proposed (service : ProposedService) : Service :=
  { service_id := service.service_id
    service_type := service.service_type
    allowed_nodes := service.allowed_nodes
    arguments := Bmap.collect service.arguments }

/-- Modelled from the spec: `impl From<ProposedNode> for CircuitNode` (used
by `upgrade_proposal_to_circuit`; the impl lives outside `src/`). -/
def CircuitNode.from_proposed (node : ProposedNode) : CircuitNode :=
  { id := node.node_id
    endpoints := node.endpoints }

/-- Modelled from the spec: `impl From<ProposedCircuit> for Circuit` (used
by `upgrade_proposal_to_circuit`; the impl lives outside `src/`): the
embedded proposed circuit and members are converted into a `Circuit`, whose
members are the proposed nodes' identifiers. -/
def Circuit.from_proposed (circuit : ProposedCircuit) : Circuit :=
  { id := circuit.circuit_id
    roster := circuit.roster.map Service.from_proposed
    members := circuit.members.map (fun node => node.node_id)
    auth := circuit.authorization_type
    persistence := circuit.persistence
    durability := circuit.durability
    routes := circuit.routes
    circuit_management_type := circuit.circuit_management_type }

/-- The circuit state cached by the store (`CircuitState` in `src/`). -/
structure CircuitState where
  nodes : Bmap String CircuitNode
  circuits : Bmap String Circuit
deriving DecidableEq

/-- The proposal state cached by the store (`ProposalState` in `src/`);
also the whole-document shape of the proposal YAML file. -/
structure ProposalState where
  proposals : Bmap String CircuitProposal
deriving DecidableEq

/-- The whole-document shape of the circuit YAML file (`YamlCircuitState`
in `src/`). -/
structure YamlCircuitState where
  nodes : Bmap String CircuitNode
  circuits : Bmap String YamlCircuit
deriving DecidableEq

/-- `impl From<YamlCircuitState> for CircuitState`: nodes move over,
circuit values are converted and re-collected. -/
def CircuitState.from_yaml (state : YamlCircuitState) : CircuitState :=
  { nodes := state.nodes
    circuits := Bmap.collect
      (state.circuits.entries.map (fun p => (p.1, Circuit.from_yaml p.2))) }

/-- `impl From<CircuitState> for YamlCircuitState`: nodes move over,
circuit values are converted and re-collected. -/
def YamlCircuitState.from_circuit_state (state : CircuitState) : YamlCircuitState :=
  { nodes := state.nodes
    circuits := Bmap.collect
      (state.circuits.entries.map (fun p => (p.1, YamlCircuit.from_circuit p.2))) }

/-- The combination of circuit and circuit proposal state guarded by the
store's single lock (`YamlState` in `src/`). -/
structure YamlState where
  circuit_state : CircuitState
  proposal_state : ProposalState
  service_directory : Bmap ServiceId Service
deriving DecidableEq

/-- `YamlState::default()`: all four tables empty. -/
def YamlState.default : YamlState :=
  { circuit_state := { nodes := ⟨[]⟩, circuits := ⟨[]⟩ }
    proposal_state := { proposals := ⟨[]⟩ }
    service_directory := ⟨[]⟩ }

/-- The caller-visible store error (`AdminServiceStoreError` in the admin
store API): a precondition violation (`OperationError`) or a storage
failure (`StorageError`).  The optional boxed underlying causes are not
representable and carry no logic. -/
inductive AdminServiceStoreError
  | OperationError (context : String)
  | StorageError (context : String)
deriving DecidableEq

/-- Modelled from the spec: a predicate over circuits/proposals used by the
list operations; only its contract (a pure boolean test applied to each
side) is relevant (spec section 4.4). -/
structure CircuitPredicate where
  apply_to_circuit : Circuit → Bool
  apply_to_proposals : CircuitProposal → Bool

/-- Which of the two YAML files an operation rewrites on its success path. -/
structure WriteSet where
  circuit_file : Bool
  proposal_file : Bool
deriving DecidableEq

/-- `AdminServiceStore::add_proposal`: fails if a proposal with the same id
already exists, otherwise inserts keyed by the proposal's `circuit_id`.
The pair carries the result and the post-call in-memory state (errors
return before any mutation). -/
def add_proposal (proposal : CircuitProposal) (st : YamlState) :
    Except AdminServiceStoreError Unit × YamlState :=
  if st.proposal_state.proposals.containsKey proposal.circuit_id then
    (.error (.OperationError
      ("A proposal with ID " ++ proposal.circuit_id ++ " already exists")), st)
  else
    (.ok (), { st with proposal_state :=
      { proposals := st.proposal_state.proposals.insert proposal.circuit_id proposal } })

/-- `AdminServiceStore::update_proposal`: full replace keyed by the
proposal's own `circuit_id`; fails if no proposal with that id exists. -/
def update_proposal (proposal : CircuitProposal) (st : YamlState) :
    Except AdminServiceStoreError Unit × YamlState :=
  if st.proposal_state.proposals.containsKey proposal.circuit_id then
    (.ok (), { st with proposal_state :=
      { proposals := st.proposal_state.proposals.insert proposal.circuit_id proposal } })
  else
    (.error (.OperationError
      ("A proposal with ID " ++ proposal.circuit_id ++ " does not exist")), st)

/-- `AdminServiceStore::remove_proposal`: deletes the proposal with the
given id; fails if absent. -/
def remove_proposal (proposal_id : String) (st : YamlState) :
    Except AdminServiceStoreError Unit × YamlState :=
  if st.proposal_state.proposals.containsKey proposal_id then
    (.ok (), { st with proposal_state :=
      { proposals := st.proposal_state.proposals.remove proposal_id } })
  else
    (.error (.OperationError
      ("A proposal with ID " ++ proposal_id ++ " does not exist")), st)

/-- `AdminServiceStore::fetch_proposal`: an optional copy; absence is not
an error. -/
def fetch_proposal (proposal_id : String) (st : YamlState) :
    Except AdminServiceStoreError (Option CircuitProposal) × YamlState :=
  (.ok (st.proposal_state.proposals.get proposal_id), st)

/-- `AdminServiceStore::list_proposals`: all proposals, retained under the
conjunction of the supplied predicates. -/
def list_proposals (predicates : List CircuitPredicate) (st : YamlState) :
    Except AdminServiceStoreError (List CircuitProposal) × YamlState :=
  (.ok ((st.proposal_state.proposals.values).filter
    (fun proposal => predicates.all (fun predicate => predicate.apply_to_proposals proposal))), st)

/-- `AdminServiceStore::add_circuit`: fails if a circuit with the same id
already exists; otherwise mirrors every roster service into the service
directory under `(service_id, circuit.id)`, inserts each supplied node only
if its id is not already present, and inserts the circuit. -/
def add_circuit (circuit : Circuit) (nodes : List CircuitNode) (st : YamlState) :
    Except AdminServiceStoreError Unit × YamlState :=
  if st.circuit_state.circuits.containsKey circuit.id then
    (.error (.OperationError
      ("A circuit with ID " ++ circuit.id ++ " already exists")), st)
  else
    (.ok (), { st with
      service_directory := circuit.roster.foldl
        (fun d service => d.insert ⟨service.service_id, circuit.id⟩ service)
        st.service_directory
      circuit_state :=
        { nodes := nodes.foldl
            (fun m node => if m.containsKey node.id then m else m.insert node.id node)
            st.circuit_state.nodes
          circuits := st.circuit_state.circuits.insert circuit.id circuit } })

/-- `AdminServiceStore::update_circuit`: full replace keyed by the
circuit's own `id`; fails if no circuit with that id exists.  Only the
circuit table is touched. -/
def update_circuit (circuit : Circuit) (st : YamlState) :
    Except AdminServiceStoreError Unit × YamlState :=
  if st.circuit_state.circuits.containsKey circuit.id then
    (.ok (), { st with circuit_state :=
      { nodes := st.circuit_state.nodes
        circuits := st.circuit_state.circuits.insert circuit.id circuit } })
  else
    (.error (.OperationError
      ("A circuit with ID " ++ circuit.id ++ " does not exist")), st)

/-- `AdminServiceStore::remove_circuit`: deletes the circuit with the given
id and removes each of the removed circuit's roster services from the
service directory; fails if absent. -/
def remove_circuit (circuit_id : String) (st : YamlState) :
    Except AdminServiceStoreError Unit × YamlState :=
  if st.circuit_state.circuits.containsKey circuit_id then
    match st.circuit_state.circuits.get circuit_id with
    | some circuit =>
      (.ok (), { st with
        service_directory := circuit.roster.foldl
          (fun d service => d.remove ⟨service.service_id, circuit_id⟩)
          st.service_directory
        circuit_state :=
          { nodes := st.circuit_state.nodes
            circuits := st.circuit_state.circuits.remove circuit_id } })
    | none =>
      (.ok (), { st with circuit_state :=
        { nodes := st.circuit_state.nodes
          circuits := st.circuit_state.circuits.remove circuit_id } })
  else
    (.error (.OperationError
      ("A circuit with ID " ++ circuit_id ++ " does not exist")), st)

/-- `AdminServiceStore::fetch_circuit`: an optional copy; absence is not an
error. -/
def fetch_circuit (circuit_id : String) (st : YamlState) :
    Except AdminServiceStoreError (Option Circuit) × YamlState :=
  (.ok (st.circuit_state.circuits.get circuit_id), st)

/-- `AdminServiceStore::list_circuits`: all circuits, retained under the
conjunction of the supplied predicates. -/
def list_circuits (predicates : List CircuitPredicate) (st : YamlState) :
    Except AdminServiceStoreError (List Circuit) × YamlState :=
  (.ok ((st.circuit_state.circuits.values).filter
    (fun circuit => predicates.all (fun predicate => predicate.apply_to_circuit circuit))), st)

/-- `AdminServiceStore::upgrade_proposal_to_circuit`: removes the proposal
with the given id, inserts the circuit converted from its embedded proposed
circuit (keyed by that circuit's own id), mirrors every proposed roster
service into the service directory under `(service_id, circuit_id)`, and
inserts each proposed member as a node only if its id is not already
present; fails if no proposal with that id exists. -/
def upgrade_proposal_to_circuit (circuit_id : String) (st : YamlState) :
    Except AdminServiceStoreError Unit × YamlState :=
  match st.proposal_state.proposals.get circuit_id with
  | some proposal =>
    let circuit := Circuit.from_proposed proposal.circuit
    (.ok (),
     { circuit_state :=
         { nodes := proposal.circuit.members.foldl
             (fun m node => if m.containsKey node.node_id then m
               else m.insert node.node_id (CircuitNode.from_proposed node))
             st.circuit_state.nodes
           circuits := st.circuit_state.circuits.insert circuit.id circuit }
       proposal_state :=
         { proposals := st.proposal_state.proposals.remove circuit_id }
       service_directory := proposal.circuit.roster.foldl
         (fun d service =>
           d.insert ⟨service.service_id, circuit_id⟩ (Service.from_proposed service))
         st.service_directory })
  | none =>
    (.error (.OperationError
      ("A circuit with ID " ++ circuit_id ++ " does not exist")), st)

/-- `AdminServiceStore::fetch_node`: an optional copy; absence is not an
error. -/
def fetch_node (node_id : String) (st : YamlState) :
    Except AdminServiceStoreError (Option CircuitNode) × YamlState :=
  (.ok (st.circuit_state.nodes.get node_id), st)

/-- `AdminServiceStore::fetch_service`: O(1) lookup in the service
directory by composite key; absence is not an error. -/
def fetch_service (service_id : ServiceId) (st : YamlState) :
    Except AdminServiceStoreError (Option Service) × YamlState :=
  (.ok (st.service_directory.get service_id), st)

/-- `AdminServiceStore::list_services`: the owning circuit's roster, in
roster order; an operation error if the circuit id is unknown. -/
def list_services (circuit_id : String) (st : YamlState) :
    Except AdminServiceStoreError (List Service) × YamlState :=
  match st.circuit_state.circuits.get circuit_id with
  | some circuit => (.ok circuit.roster, st)
  | none =>
    (.error (.OperationError ("Circuit " ++ circuit_id ++ " does not exist")), st)

/-- `add_proposal` persists via `write_proposal_state` alone. -/
def add_proposal_writes : WriteSet := ⟨false, true⟩

/-- `update_proposal` persists via `write_proposal_state` alone. -/
def update_proposal_writes : WriteSet := ⟨false, true⟩

/-- `remove_proposal` persists via `write_proposal_state` alone. -/
def remove_proposal_writes : WriteSet := ⟨false, true⟩

/-- `add_circuit` persists via `write_circuit_state` alone. -/
def add_circuit_writes : WriteSet := ⟨true, false⟩

/-- `update_circuit` persists via `write_circuit_state` alone. -/
def update_circuit_writes : WriteSet := ⟨true, false⟩

/-- `remove_circuit` persists via `write_circuit_state` alone. -/
def remove_circuit_writes : WriteSet := ⟨true, false⟩

/-- `upgrade_proposal_to_circuit` persists via `write_state`, rewriting
both the circuit file and the proposal file in one call. -/
def upgrade_proposal_to_circuit_writes : WriteSet := ⟨true, true⟩

/-- The nested service-directory rebuild loop of `read_circuit_state` and
`read_state`: for every circuit of the converted circuit state, every
roster service is inserted under `(service_id, circuit_id)`. -/
def build_directory (circuits : List (String × Circuit))
    (d : Bmap ServiceId Service) : Bmap ServiceId Service :=
  circuits.foldl
    (fun d pr => pr.2.roster.foldl
      (fun d service => d.insert ⟨service.service_id, pr.1⟩ service) d)
    d

/-- `YamlAdminServiceStore::read_circuit_state`: convert the circuit file
document, rebuild the service directory from the converted rosters on top
of the current directory, and replace the circuit state wholesale. -/
def read_circuit_state_model (doc : YamlCircuitState) (st : YamlState) : YamlState :=
  let yaml_state := CircuitState.from_yaml doc
  { st with
    service_directory := build_directory yaml_state.circuits.entries st.service_directory
    circuit_state := yaml_state }

/-- `YamlAdminServiceStore::read_proposal_state`: replace the proposal
state wholesale with the proposal file document. -/
def read_proposal_state_model (doc : ProposalState) (st : YamlState) : YamlState :=
  { st with proposal_state := doc }

/-- `YamlAdminServiceStore::read_state`: both reads under one lock hold. -/
def read_state_model (circuit_doc : YamlCircuitState) (proposal_doc : ProposalState)
    (st : YamlState) : YamlState :=
  read_proposal_state_model proposal_doc (read_circuit_state_model circuit_doc st)

/-- The whole-document wire form of the circuit file written by
`write_circuit_state`. -/
def write_circuit_doc (st : YamlState) : YamlCircuitState :=
  YamlCircuitState.from_circuit_state st.circuit_state

/-- The whole-document wire form of the proposal file written by
`write_proposal_state`. -/
def write_proposal_doc (st : YamlState) : ProposalState :=
  st.proposal_state

/-- The two on-disk documents as seen by construction: `none` models a
missing file, `some` a present file whose parsed whole-document content is
given (serde round-tripping of the text itself is outside the embedding). -/
structure FileSystem where
  circuit_file : Option YamlCircuitState
  proposal_file : Option ProposalState
deriving DecidableEq

/-- `YamlAdminServiceStore::new`: the four-way bootstrap on file existence:
both present are read; a single present file is read and the missing one is
written from the (still default) state; neither present writes both files
with empty default state.  Returns the cached state and the resulting
files. -/
def YamlAdminServiceStore.new (fs : FileSystem) : YamlState × FileSystem :=
  match fs.circuit_file, fs.proposal_file with
  | some circuit_doc, some proposal_doc =>
    (read_state_model circuit_doc proposal_doc YamlState.default, fs)
  | some circuit_doc, none =>
    let st := read_circuit_state_model circuit_doc YamlState.default
    (st, { circuit_file := some circuit_doc
           proposal_file := some (write_proposal_doc st) })
  | none, some proposal_doc =>
    let fs' : FileSystem :=
      { circuit_file := some (write_circuit_doc YamlState.default)
        proposal_file := some proposal_doc }
    (read_proposal_state_model proposal_doc YamlState.default, fs')
  | none, none =>
    (YamlState.default,
     { circuit_file := some (write_circuit_doc YamlState.default)
       proposal_file := some (write_proposal_doc YamlState.default) })

/-- Concrete service fixture used by witnesses and counterexamples. -/
def svcA : Service :=
  { service_id := "a000"
    service_type := "scabbard"
    allowed_nodes := ["acme-node-000"]
    arguments := ⟨[("admin_keys", "k"), ("peer_services", "p")]⟩ }

/-- Concrete node fixture. -/
def nodeA : CircuitNode :=
  { id := "acme-node-000"
    endpoints := ["tcps://splinterd-node-acme:8044"] }

/-- Concrete circuit fixture. -/
def circA : Circuit :=
  { id := "WBKLF-AAAAA"
    roster := [svcA]
    members := ["acme-node-000"]
    auth := .Trust
    persistence := .Any
    durability := .NoDurability
    routes := .Any
    circuit_management_type := "gameroom" }

/-- The circuit fixture with its roster emptied (a full-replace update). -/
def circA_empty : Circuit := { circA with roster := [] }

/-- Store state holding `circA` and `nodeA`, reached by one `add_circuit`
from the default state. -/
def stA : YamlState := (add_circuit circA [nodeA] YamlState.default).2

/-- Store state reached from `stA` by replacing `circA` with its
roster-less update. -/
def stA2 : YamlState := (update_circuit circA_empty stA).2

/-- Concrete proposed service fixture. -/
def propSvc : ProposedService :=
  { service_id := "a000"
    service_type := "scabbard"
    allowed_nodes := ["acme-node-000"]
    arguments := [("peer_services", "p"), ("admin_keys", "k")] }

/-- Concrete proposed node fixture. -/
def propNode : ProposedNode :=
  { node_id := "acme-node-000"
    endpoints := ["tcps://splinterd-node-acme:8044"] }

/-- Concrete embedded proposed circuit whose own id differs from the
proposal's id. -/
def proposedQ : ProposedCircuit :=
  { circuit_id := "WBKLF-QQQQQ"
    roster := [propSvc]
    members := [propNode]
    authorization_type := .Trust
    persistence := .Any
    durability := .NoDurability
    routes := .Any
    circuit_management_type := "gameroom"
    application_metadata := ""
    comments := "" }

/-- Concrete proposal fixture keyed `WBKLF-PPPPP` embedding `proposedQ`. -/
def propP : CircuitProposal :=
  { proposal_type := .Create
    circuit_id := "WBKLF-PPPPP"
    circuit_hash := "7ddc426972710adc"
    circuit := proposedQ
    votes := []
    requester := "0283a14e0a17cb7f"
    requester_node_id := "acme-node-000" }

/-- Store state holding `propP`, reached by one `add_proposal` from the
default state. -/
def stPP : YamlState := (add_proposal propP YamlState.default).2

/-- Concrete predicate fixture: retains gameroom-managed circuits and all
proposals. -/
def predG : CircuitPredicate :=
  { apply_to_circuit := fun circuit => circuit.circuit_management_type == "gameroom"
    apply_to_proposals := fun _ => true }

/-- Mapping a service list to composite keys with a fixed circuit id
preserves distinctness of the local service ids. -/
theorem nodup_service_keys {σ : Type} (l : List σ) (sidf : σ → String) (cid : String)
    (h : (l.map sidf).Nodup) :
    (l.map (fun s => ServiceId.mk (sidf s) cid)).Nodup := by
  have heq : l.map (fun s => ServiceId.mk (sidf s) cid)
      = (l.map sidf).map (fun x => ServiceId.mk x cid) := by
    rw [List.map_map]; rfl
  rw [heq]
  exact h.map (fun a b hab => by simpa using congrArg ServiceId.service_id hab)

/-- A well-formed argument mapping survives the wire conversion in both
directions. -/
theorem service_roundtrip_aux (s : Service) (h : s.arguments.WF) :
    Service.from_yaml (YamlService.from_service s) = s := by
  obtain ⟨sid, sty, an, ⟨ae⟩⟩ := s
  have h' : (ae.map Prod.fst).Nodup := h
  simp [YamlService.from_service, Service.from_yaml, map_pair_eta,
    Bmap.collect_of_nodup ae h']

/-- Rosters of well-formed services survive the wire conversion. -/
theorem roster_roundtrip_aux (roster : List Service)
    (h : ∀ s ∈ roster, s.arguments.WF) :
    roster.map (fun s => Service.from_yaml (YamlService.from_service s)) = roster := by
  induction roster with
  | nil => rfl
  | cons s t ih =>
    rw [List.map_cons, service_roundtrip_aux s (h s (List.mem_cons_self s t)),
      ih (fun x hx => h x (List.mem_cons_of_mem s hx))]

/-- C1: converting a `Service` to its on-disk wire shape (`YamlService`)
and back, and a `Circuit` to `YamlCircuit` and back, are identities; the
argument key/value sets are preserved with no key lost or duplicated.  The
`WF` hypotheses state that each argument table is a genuine key-unique
mapping, the representation invariant every `BTreeMap` value satisfies. -/
theorem adapter_roundtrip_identity :
    (∀ s : Service, s.arguments.WF →
      Service.from_yaml (YamlService.from_service s) = s) ∧
    (∀ c : Circuit, (∀ s ∈ c.roster, s.arguments.WF) →
      Circuit.from_yaml (YamlCircuit.from_circuit c) = c) := by
  constructor
  · exact service_roundtrip_aux
  · intro c h
    obtain ⟨id, roster, members, auth, pers, dur, routes, mgmt⟩ := c
    simp only [YamlCircuit.from_circuit, Circuit.from_yaml, List.map_map,
      Function.comp_def]
    rw [roster_roundtrip_aux roster h]

/-- C1 witness: the identity evaluated at the concrete service fixture. -/
theorem adapter_roundtrip_identity_witness :
    svcA.arguments.WF ∧ Service.from_yaml (YamlService.from_service svcA) = svcA :=
  ⟨by decide, adapter_roundtrip_identity.1 svcA (by decide)⟩

/-- C2 counterexample: a reachable state (add `circA`, then a full-replace
update that empties its roster) under which `remove_circuit` succeeds yet
an entry whose composite key's circuit id is the removed id survives in the
service lookup table, so the claim that every such service is removed is
false on the code. -/
theorem remove_circuit_cascade_counterexample :
    (remove_circuit "WBKLF-AAAAA" stA2).1 = .ok () ∧
    Bmap.get ((remove_circuit "WBKLF-AAAAA" stA2).2).service_directory
      ⟨"a000", "WBKLF-AAAAA"⟩ = some svcA :=
  ⟨rfl, rfl⟩

/-- C2 (amended): a successful `remove_circuit(id)` deletes the circuit and
removes from the service lookup exactly the composite keys derived from the
removed circuit's roster; `add_circuit` with a new circuit whose roster has
distinct service ids makes every roster entry immediately fetchable via
`fetch_service` under `(service_id, circuit.id)`. -/
theorem circuit_service_cascade :
    (∀ (st : YamlState) (circuit_id : String) (c : Circuit),
      st.circuit_state.circuits.get circuit_id = some c →
      (remove_circuit circuit_id st).1 = .ok () ∧
      Bmap.get ((remove_circuit circuit_id st).2).circuit_state.circuits circuit_id
        = none ∧
      ∀ s ∈ c.roster,
        Bmap.get ((remove_circuit circuit_id st).2).service_directory
          ⟨s.service_id, circuit_id⟩ = none) ∧
    (∀ (st : YamlState) (circuit : Circuit) (nodes : List CircuitNode),
      st.circuit_state.circuits.containsKey circuit.id = false →
      (circuit.roster.map Service.service_id).Nodup →
      (add_circuit circuit nodes st).1 = .ok () ∧
      ∀ s ∈ circuit.roster,
        (fetch_service ⟨s.service_id, circuit.id⟩ (add_circuit circuit nodes st).2).1
          = .ok (some s)) := by
  constructor
  · intro st circuit_id c h
    have hc : st.circuit_state.circuits.containsKey circuit_id = true :=
      Bmap.contains_of_get_some _ _ _ h
    refine ⟨?_, ?_, ?_⟩
    · simp [remove_circuit, hc, h]
    · simp only [remove_circuit, hc, if_true, h]
      exact Bmap.get_remove_self _ _
    · intro s hs
      simp only [remove_circuit, hc, if_true, h]
      exact Bmap.get_foldl_remove_mem c.roster
        (fun s => (⟨s.service_id, circuit_id⟩ : ServiceId)) st.service_directory s hs
  · intro st circuit nodes hc hn
    constructor
    · simp [add_circuit, hc]
    · intro s hs
      simp only [add_circuit, hc, Bool.false_eq_true, if_false, fetch_service]
      rw [Bmap.get_foldl_insert_mem circuit.roster
        (fun s => (⟨s.service_id, circuit.id⟩ : ServiceId)) (fun s => s)
        st.service_directory
        (nodup_service_keys circuit.roster Service.service_id circuit.id hn) s hs]

/-- C2 witness: the amended cascade evaluated on the concrete one-circuit
state. -/
theorem circuit_service_cascade_witness :
    Bmap.get stA.circuit_state.circuits "WBKLF-AAAAA" = some circA ∧
    Bmap.get ((remove_circuit "WBKLF-AAAAA" stA).2).service_directory
      ⟨"a000", "WBKLF-AAAAA"⟩ = none :=
  ⟨by decide,
   (circuit_service_cascade.1 stA "WBKLF-AAAAA" circA (by decide)).2.2 svcA (by decide)⟩

/-- C3: adds with an id already present fail with an operation error and
leave the whole in-memory state unchanged; updates and removes on an absent
id fail with an operation error and leave the whole in-memory state
unchanged (no upsert). -/
theorem uniqueness_precondition_errors :
    (∀ (st : YamlState) (p : CircuitProposal),
      st.proposal_state.proposals.containsKey p.circuit_id = true →
      add_proposal p st = (.error (.OperationError
        ("A proposal with ID " ++ p.circuit_id ++ " already exists")), st)) ∧
    (∀ (st : YamlState) (c : Circuit) (nodes : List CircuitNode),
      st.circuit_state.circuits.containsKey c.id = true →
      add_circuit c nodes st = (.error (.OperationError
        ("A circuit with ID " ++ c.id ++ " already exists")), st)) ∧
    (∀ (st : YamlState) (p : CircuitProposal),
      st.proposal_state.proposals.containsKey p.circuit_id = false →
      update_proposal p st = (.error (.OperationError
        ("A proposal with ID " ++ p.circuit_id ++ " does not exist")), st)) ∧
    (∀ (st : YamlState) (c : Circuit),
      st.circuit_state.circuits.containsKey c.id = false →
      update_circuit c st = (.error (.OperationError
        ("A circuit with ID " ++ c.id ++ " does not exist")), st)) ∧
    (∀ (st : YamlState) (proposal_id : String),
      st.proposal_state.proposals.containsKey proposal_id = false →
      remove_proposal proposal_id st = (.error (.OperationError
        ("A proposal with ID " ++ proposal_id ++ " does not exist")), st)) ∧
    (∀ (st : YamlState) (circuit_id : String),
      st.circuit_state.circuits.containsKey circuit_id = false →
      remove_circuit circuit_id st = (.error (.OperationError
        ("A circuit with ID " ++ circuit_id ++ " does not exist")), st)) := by
  refine ⟨?_, ?_, ?_, ?_, ?_, ?_⟩
  · intro st p h; simp [add_proposal, h]
  · intro st c nodes h; simp [add_circuit, h]
  · intro st p h; simp [update_proposal, h]
  · intro st c h; simp [update_circuit, h]
  · intro st pid h; simp [remove_proposal, h]
  · intro st cid h; simp [remove_circuit, h]

/-- C3 witness: adding the already-present proposal fixture fails and
leaves the state unchanged. -/
theorem uniqueness_precondition_errors_witness :
    stPP.proposal_state.proposals.containsKey propP.circuit_id = true ∧
    add_proposal propP stPP = (.error (.OperationError
      ("A proposal with ID " ++ propP.circuit_id ++ " already exists")), stPP) :=
  ⟨by decide, uniqueness_precondition_errors.1 stPP propP (by decide)⟩

/-- C4 counterexample: a proposal keyed `WBKLF-PPPPP` whose embedded
proposed circuit carries its own id `WBKLF-QQQQQ`.  The upgrade succeeds
but inserts the circuit under the embedded id, so no circuit with the given
id exists afterwards, refuting the claim that a circuit with the given id
is inserted. -/
theorem upgrade_identifier_counterexample :
    (upgrade_proposal_to_circuit "WBKLF-PPPPP" stPP).1 = .ok () ∧
    Bmap.get ((upgrade_proposal_to_circuit "WBKLF-PPPPP" stPP).2).circuit_state.circuits
      "WBKLF-PPPPP" = none ∧
    Bmap.get ((upgrade_proposal_to_circuit "WBKLF-PPPPP" stPP).2).circuit_state.circuits
      "WBKLF-QQQQQ" = some (Circuit.from_proposed proposedQ) :=
  ⟨rfl, rfl, rfl⟩

/-- C4 (amended): when a proposal with the given id exists,
`upgrade_proposal_to_circuit` removes it from the proposal table, inserts a
circuit built from the embedded proposed circuit under that circuit's own
id (equal to the given id exactly when the embedded id matches the proposal
id), preserves every existing node (first-writer-wins), makes every member
id present as a node, gives each member absent before the call its
converted node (member ids distinct), and inserts every proposed roster
service (service ids distinct) under `(service_id, given id)`; it persists
both files; with no such proposal it fails with an operation error and the
state is unchanged. -/
theorem upgrade_proposal_transition :
    (∀ (st : YamlState) (circuit_id : String) (proposal : CircuitProposal),
      st.proposal_state.proposals.get circuit_id = some proposal →
      (upgrade_proposal_to_circuit circuit_id st).1 = .ok () ∧
      Bmap.get ((upgrade_proposal_to_circuit circuit_id st).2).proposal_state.proposals
        circuit_id = none ∧
      Bmap.get ((upgrade_proposal_to_circuit circuit_id st).2).circuit_state.circuits
        proposal.circuit.circuit_id = some (Circuit.from_proposed proposal.circuit) ∧
      (∀ (k : String) (v : CircuitNode),
        Bmap.get st.circuit_state.nodes k = some v →
        Bmap.get ((upgrade_proposal_to_circuit circuit_id st).2).circuit_state.nodes k
          = some v) ∧
      (∀ n ∈ proposal.circuit.members,
        Bmap.containsKey
          ((upgrade_proposal_to_circuit circuit_id st).2).circuit_state.nodes n.node_id
          = true) ∧
      ((proposal.circuit.members.map (fun n => n.node_id)).Nodup →
        ∀ n ∈ proposal.circuit.members,
          Bmap.get st.circuit_state.nodes n.node_id = none →
          Bmap.get ((upgrade_proposal_to_circuit circuit_id st).2).circuit_state.nodes
            n.node_id = some (CircuitNode.from_proposed n)) ∧
      ((proposal.circuit.roster.map ProposedService.service_id).Nodup →
        ∀ s ∈ proposal.circuit.roster,
          Bmap.get ((upgrade_proposal_to_circuit circuit_id st).2).service_directory
            ⟨s.service_id, circuit_id⟩ = some (Service.from_proposed s))) ∧
    upgrade_proposal_to_circuit_writes = ⟨true, true⟩ ∧
    (∀ (st : YamlState) (circuit_id : String),
      st.proposal_state.proposals.get circuit_id = none →
      upgrade_proposal_to_circuit circuit_id st = (.error (.OperationError
        ("A circuit with ID " ++ circuit_id ++ " does not exist")), st)) := by
  refine ⟨?_, rfl, ?_⟩
  · intro st circuit_id proposal h
    refine ⟨?_, ?_, ?_, ?_, ?_, ?_, ?_⟩
    · simp [upgrade_proposal_to_circuit, h]
    · simp only [upgrade_proposal_to_circuit, h]
      exact Bmap.get_remove_self _ _
    · simp only [upgrade_proposal_to_circuit, h]
      exact Bmap.get_insert_self _ _ _
    · intro k v hv
      simp only [upgrade_proposal_to_circuit, h]
      exact Bmap.get_foldl_condInsert_some proposal.circuit.members
        (fun n => n.node_id) (fun n => CircuitNode.from_proposed n)
        st.circuit_state.nodes k v hv
    · intro n hn
      simp only [upgrade_proposal_to_circuit, h]
      exact Bmap.contains_foldl_condInsert_mem proposal.circuit.members
        (fun n => n.node_id) (fun n => CircuitNode.from_proposed n)
        st.circuit_state.nodes n hn
    · intro hnod n hn habs
      simp only [upgrade_proposal_to_circuit, h]
      exact Bmap.get_foldl_condInsert_absent proposal.circuit.members
        (fun n => n.node_id) (fun n => CircuitNode.from_proposed n)
        st.circuit_state.nodes hnod n hn habs
    · intro hnod s hs
      simp only [upgrade_proposal_to_circuit, h]
      exact Bmap.get_foldl_insert_mem proposal.circuit.roster
        (fun s => (⟨s.service_id, circuit_id⟩ : ServiceId))
        (fun s => Service.from_proposed s) st.service_directory
        (nodup_service_keys proposal.circuit.roster ProposedService.service_id
          circuit_id hnod) s hs
  · intro st circuit_id h
    simp [upgrade_proposal_to_circuit, h]

/-- C4 witness: the amended transition evaluated on the concrete
one-proposal state. -/
theorem upgrade_proposal_transition_witness :
    Bmap.get stPP.proposal_state.proposals "WBKLF-PPPPP" = some propP ∧
    Bmap.get ((upgrade_proposal_to_circuit "WBKLF-PPPPP" stPP).2).proposal_state.proposals
      "WBKLF-PPPPP" = none :=
  ⟨by decide,
   (upgrade_proposal_transition.1 stPP "WBKLF-PPPPP" propP (by decide)).2.1⟩

/-- C6: `update_circuit` on a present id succeeds, replaces exactly the
circuit-table entry for that id, and leaves the node table, the proposal
table and the whole derived service lookup unchanged, so every
`fetch_service` result is exactly what it was before the update. -/
theorem update_circuit_frame (st : YamlState) (circuit : Circuit)
    (h : st.circuit_state.circuits.containsKey circuit.id = true) :
    (update_circuit circuit st).1 = .ok () ∧
    ((update_circuit circuit st).2).service_directory = st.service_directory ∧
    ((update_circuit circuit st).2).circuit_state.nodes = st.circuit_state.nodes ∧
    ((update_circuit circuit st).2).proposal_state = st.proposal_state ∧
    ((update_circuit circuit st).2).circuit_state.circuits
      = st.circuit_state.circuits.insert circuit.id circuit ∧
    (∀ sid : ServiceId,
      (fetch_service sid ((update_circuit circuit st).2)).1 = (fetch_service sid st).1) := by
  refine ⟨?_, ?_, ?_, ?_, ?_, ?_⟩ <;> simp [update_circuit, h, fetch_service]

/-- C6 witness: the frame evaluated on the concrete one-circuit state. -/
theorem update_circuit_frame_witness :
    stA.circuit_state.circuits.containsKey circA_empty.id = true ∧
    ((update_circuit circA_empty stA).2).service_directory = stA.service_directory :=
  ⟨by decide, (update_circuit_frame stA circA_empty (by decide)).2.1⟩

/-- Membership in a filtered circuit listing is membership among all
circuits plus satisfaction of every predicate. -/
theorem mem_filter_all_circuits (values : List Circuit)
    (preds : List CircuitPredicate) (circuit : Circuit) :
    (circuit ∈ values.filter
        (fun c => preds.all (fun p => p.apply_to_circuit c))) ↔
      circuit ∈ values ∧ ∀ p ∈ preds, p.apply_to_circuit circuit = true := by
  simp [List.mem_filter, List.all_eq_true]

/-- Membership in a filtered proposal listing is membership among all
proposals plus satisfaction of every predicate. -/
theorem mem_filter_all_proposals (values : List CircuitProposal)
    (preds : List CircuitPredicate) (proposal : CircuitProposal) :
    (proposal ∈ values.filter
        (fun pr => preds.all (fun p => p.apply_to_proposals pr))) ↔
      proposal ∈ values ∧ ∀ p ∈ preds, p.apply_to_proposals proposal = true := by
  simp [List.mem_filter, List.all_eq_true]

/-- C7: an empty predicate list returns all circuits (resp. proposals);
with predicates the listing holds exactly the entries satisfying every
predicate (conjunctive AND); two predicates give exactly the intersection
of their single-predicate listings. -/
theorem list_filter_conjunction :
    (∀ st : YamlState,
      (list_circuits [] st).1 = .ok st.circuit_state.circuits.values) ∧
    (∀ (st : YamlState) (preds : List CircuitPredicate) (l : List Circuit),
      (list_circuits preds st).1 = .ok l →
      ∀ circuit, circuit ∈ l ↔
        circuit ∈ st.circuit_state.circuits.values ∧
          ∀ p ∈ preds, p.apply_to_circuit circuit = true) ∧
    (∀ (st : YamlState) (p1 p2 : CircuitPredicate)
        (l12 l1 l2 : List Circuit),
      (list_circuits [p1, p2] st).1 = .ok l12 →
      (list_circuits [p1] st).1 = .ok l1 →
      (list_circuits [p2] st).1 = .ok l2 →
      ∀ circuit, circuit ∈ l12 ↔ circuit ∈ l1 ∧ circuit ∈ l2) ∧
    (∀ st : YamlState,
      (list_proposals [] st).1 = .ok st.proposal_state.proposals.values) ∧
    (∀ (st : YamlState) (preds : List CircuitPredicate) (l : List CircuitProposal),
      (list_proposals preds st).1 = .ok l →
      ∀ proposal, proposal ∈ l ↔
        proposal ∈ st.proposal_state.proposals.values ∧
          ∀ p ∈ preds, p.apply_to_proposals proposal = true) := by
  refine ⟨?_, ?_, ?_, ?_, ?_⟩
  · intro st; simp [list_circuits]
  · intro st preds l h circuit
    simp only [list_circuits, Except.ok.injEq] at h
    rw [← h]
    exact mem_filter_all_circuits _ preds circuit
  · intro st p1 p2 l12 l1 l2 h12 h1 h2 circuit
    simp only [list_circuits, Except.ok.injEq] at h12 h1 h2
    rw [← h12, ← h1, ← h2]
    simp only [mem_filter_all_circuits]
    constructor
    · rintro ⟨hm, hall⟩
      exact ⟨⟨hm, fun p hp => by
        rcases List.mem_singleton.mp hp with rfl
        exact hall p (by simp)⟩,
        ⟨hm, fun p hp => by
          rcases List.mem_singleton.mp hp with rfl
          exact hall p (by simp)⟩⟩
    · rintro ⟨⟨hm, hall1⟩, ⟨_, hall2⟩⟩
      refine ⟨hm, fun p hp => ?_⟩
      rcases List.mem_cons.mp hp with rfl | hp'
      · exact hall1 p (by simp)
      · rcases List.mem_singleton.mp hp' with rfl
        exact hall2 p (by simp)
  · intro st; simp [list_proposals]
  · intro st preds l h proposal
    simp only [list_proposals, Except.ok.injEq] at h
    rw [← h]
    exact mem_filter_all_proposals _ preds proposal

/-- C7 witness: the membership characterization evaluated on the concrete
one-circuit state and one concrete predicate. -/
theorem list_filter_conjunction_witness :
    (list_circuits [predG] stA).1 = .ok [circA] ∧
    (circA ∈ [circA] ↔
      circA ∈ stA.circuit_state.circuits.values ∧
        ∀ p ∈ [predG], p.apply_to_circuit circA = true) :=
  ⟨rfl, list_filter_conjunction.2.1 stA [predG] [circA] rfl circA⟩

/-- C8: fetching a circuit, proposal, node or service under an id absent
from the corresponding table returns an empty (`none`) result, not an
error, and leaves the state unchanged. -/
theorem fetch_absent_returns_none :
    (∀ (st : YamlState) (circuit_id : String),
      Bmap.get st.circuit_state.circuits circuit_id = none →
      fetch_circuit circuit_id st = (.ok none, st)) ∧
    (∀ (st : YamlState) (proposal_id : String),
      Bmap.get st.proposal_state.proposals proposal_id = none →
      fetch_proposal proposal_id st = (.ok none, st)) ∧
    (∀ (st : YamlState) (node_id : String),
      Bmap.get st.circuit_state.nodes node_id = none →
      fetch_node node_id st = (.ok none, st)) ∧
    (∀ (st : YamlState) (service_id : ServiceId),
      Bmap.get st.service_directory service_id = none →
      fetch_service service_id st = (.ok none, st)) := by
  refine ⟨?_, ?_, ?_, ?_⟩
  · intro st cid h; simp [fetch_circuit, h]
  · intro st pid h; simp [fetch_proposal, h]
  · intro st nid h; simp [fetch_node, h]
  · intro st sid h; simp [fetch_service, h]

/-- C8 witness: the four fetches evaluated at an id absent from the
concrete state. -/
theorem fetch_absent_returns_none_witness :
    Bmap.get stA.circuit_state.circuits "WBKLF-BADD" = none ∧
    fetch_circuit "WBKLF-BADD" stA = (.ok none, stA) :=
  ⟨by decide, fetch_absent_returns_none.1 stA "WBKLF-BADD" (by decide)⟩

/-- C9: `list_services` returns an operation error exactly when no circuit
with the given id exists; on a present circuit it returns that circuit's
roster verbatim, in roster order, leaving the state unchanged. -/
theorem list_services_contract :
    (∀ (st : YamlState) (circuit_id : String) (c : Circuit),
      Bmap.get st.circuit_state.circuits circuit_id = some c →
      list_services circuit_id st = (.ok c.roster, st)) ∧
    (∀ (st : YamlState) (circuit_id : String),
      Bmap.get st.circuit_state.circuits circuit_id = none →
      list_services circuit_id st = (.error (.OperationError
        ("Circuit " ++ circuit_id ++ " does not exist")), st)) := by
  constructor
  · intro st cid c h; simp [list_services, h]
  · intro st cid h; simp [list_services, h]

/-- C9 witness: the contract evaluated on the concrete one-circuit state. -/
theorem list_services_contract_witness :
    Bmap.get stA.circuit_state.circuits "WBKLF-AAAAA" = some circA ∧
    list_services "WBKLF-AAAAA" stA = (.ok circA.roster, stA) :=
  ⟨by decide, list_services_contract.1 stA "WBKLF-AAAAA" circA (by decide)⟩

/-- C10: proposal mutations never touch the node table, circuit table or
service lookup; circuit mutations never touch the proposal table (on both
the success and the error path); `upgrade_proposal_to_circuit` mutates both
collections (witnessed concretely) and is the only operation whose
persistence writes both files, as the per-operation write sets record. -/
theorem collection_isolation :
    (∀ (st : YamlState) (p : CircuitProposal),
      ((add_proposal p st).2).circuit_state = st.circuit_state ∧
      ((add_proposal p st).2).service_directory = st.service_directory) ∧
    (∀ (st : YamlState) (p : CircuitProposal),
      ((update_proposal p st).2).circuit_state = st.circuit_state ∧
      ((update_proposal p st).2).service_directory = st.service_directory) ∧
    (∀ (st : YamlState) (proposal_id : String),
      ((remove_proposal proposal_id st).2).circuit_state = st.circuit_state ∧
      ((remove_proposal proposal_id st).2).service_directory = st.service_directory) ∧
    (∀ (st : YamlState) (c : Circuit) (nodes : List CircuitNode),
      ((add_circuit c nodes st).2).proposal_state = st.proposal_state) ∧
    (∀ (st : YamlState) (c : Circuit),
      ((update_circuit c st).2).proposal_state = st.proposal_state) ∧
    (∀ (st : YamlState) (circuit_id : String),
      ((remove_circuit circuit_id st).2).proposal_state = st.proposal_state) ∧
    (((upgrade_proposal_to_circuit "WBKLF-PPPPP" stPP).2).circuit_state
        ≠ stPP.circuit_state ∧
      ((upgrade_proposal_to_circuit "WBKLF-PPPPP" stPP).2).proposal_state
        ≠ stPP.proposal_state) ∧
    (add_proposal_writes = ⟨false, true⟩ ∧
      update_proposal_writes = ⟨false, true⟩ ∧
      remove_proposal_writes = ⟨false, true⟩ ∧
      add_circuit_writes = ⟨true, false⟩ ∧
      update_circuit_writes = ⟨true, false⟩ ∧
      remove_circuit_writes = ⟨true, false⟩ ∧
      upgrade_proposal_to_circuit_writes = ⟨true, true⟩) := by
  refine ⟨?_, ?_, ?_, ?_, ?_, ?_, ⟨by decide, by decide⟩,
    ⟨rfl, rfl, rfl, rfl, rfl, rfl, rfl⟩⟩
  · intro st p
    by_cases h : st.proposal_state.proposals.containsKey p.circuit_id <;>
      simp [add_proposal, h]
  · intro st p
    by_cases h : st.proposal_state.proposals.containsKey p.circuit_id <;>
      simp [update_proposal, h]
  · intro st pid
    by_cases h : st.proposal_state.proposals.containsKey pid <;>
      simp [remove_proposal, h]
  · intro st c nodes
    by_cases h : st.circuit_state.circuits.containsKey c.id <;>
      simp [add_circuit, h]
  · intro st c
    by_cases h : st.circuit_state.circuits.containsKey c.id <;>
      simp [update_circuit, h]
  · intro st cid
    by_cases h : st.circuit_state.circuits.containsKey cid
    · cases hg : Bmap.get st.circuit_state.circuits cid <;>
        simp [remove_circuit, h, hg]
    · simp [remove_circuit, h]

/-- C10 witness: the proposal-side frame evaluated at the concrete default
state. -/
theorem collection_isolation_witness :
    ((add_proposal propP YamlState.default).2).circuit_state
      = YamlState.default.circuit_state :=
  (collection_isolation.1 YamlState.default propP).1

/-- Looking up a circuit of the converted circuit file document yields the
converted circuit (given key-unique circuits in the document). -/
theorem get_circuits_from_yaml (doc : YamlCircuitState) (h : doc.circuits.WF)
    (pr : String × YamlCircuit) (hpr : pr ∈ doc.circuits.entries) :
    Bmap.get (CircuitState.from_yaml doc).circuits pr.1
      = some (Circuit.from_yaml pr.2) := by
  have hkeys : ((doc.circuits.entries.map
      (fun p => (p.1, Circuit.from_yaml p.2))).map Prod.fst).Nodup := by
    rw [map_fst_map_value]; exact h
  simp only [CircuitState.from_yaml]
  rw [Bmap.collect_of_nodup _ hkeys]
  exact Bmap.getE_of_mem_nodup _ hkeys pr.1 (Circuit.from_yaml pr.2)
    (List.mem_map_of_mem _ hpr)

/-- The rebuilt service directory is untouched at composite keys whose
circuit id belongs to none of the folded circuits. -/
theorem get_build_directory_forbidden (circs : List (String × Circuit))
    (d : Bmap ServiceId Service) (sid cid : String)
    (h : ∀ q ∈ circs, q.1 ≠ cid) :
    (build_directory circs d).get ⟨sid, cid⟩ = d.get ⟨sid, cid⟩ := by
  induction circs generalizing d with
  | nil => rfl
  | cons q t ih =>
    have hq : q.1 ≠ cid := h q (List.mem_cons_self q t)
    have hstep : ∀ x ∈ q.2.roster,
        (fun s => (⟨s.service_id, q.1⟩ : ServiceId)) x ≠ ⟨sid, cid⟩ := by
      intro x _ hx
      exact hq (congrArg ServiceId.circuit_id hx)
    show (build_directory t
      (q.2.roster.foldl (fun d s => d.insert ⟨s.service_id, q.1⟩ s) d)).get ⟨sid, cid⟩
        = d.get ⟨sid, cid⟩
    rw [ih _ (fun q' hq' => h q' (List.mem_cons_of_mem q hq'))]
    exact Bmap.get_foldl_insert_of_forbidden q.2.roster
      (fun s => (⟨s.service_id, q.1⟩ : ServiceId)) (fun s => s) d ⟨sid, cid⟩ hstep

/-- Every roster service of every folded circuit (circuit keys distinct,
roster service ids distinct) is found in the rebuilt service directory
under its composite key. -/
theorem get_build_directory_mem (circs : List (String × Circuit))
    (d : Bmap ServiceId Service) (hn : (circs.map Prod.fst).Nodup)
    (cid : String) (circ : Circuit) (hc : (cid, circ) ∈ circs)
    (hros : (circ.roster.map Service.service_id).Nodup)
    (s : Service) (hmem : s ∈ circ.roster) :
    (build_directory circs d).get ⟨s.service_id, cid⟩ = some s := by
  induction circs generalizing d with
  | nil => cases hc
  | cons q t ih =>
    rw [List.map_cons] at hn
    have hn' := List.nodup_cons.mp hn
    show (build_directory t
      (q.2.roster.foldl (fun d s => d.insert ⟨s.service_id, q.1⟩ s) d)).get
        ⟨s.service_id, cid⟩ = some s
    rcases List.mem_cons.mp hc with heq | hc'
    · obtain rfl : q = (cid, circ) := heq.symm
      have hforb : ∀ q' ∈ t, q'.1 ≠ cid := by
        intro q' hq' hcontra
        apply hn'.1
        show cid ∈ t.map Prod.fst
        rw [← hcontra]
        exact List.mem_map_of_mem Prod.fst hq'
      rw [get_build_directory_forbidden t _ s.service_id cid hforb]
      exact Bmap.get_foldl_insert_mem circ.roster
        (fun x => (⟨x.service_id, cid⟩ : ServiceId)) (fun x => x) d
        (nodup_service_keys circ.roster Service.service_id cid hros) s hmem
    · exact ih _ hn'.2 hc'

/-- C5: the construction bootstrap resolves exactly one of four cases on
file existence: with neither file both are written as empty documents;
with only one file its document is preserved and loaded while the missing
file is written empty; with both files both documents are loaded and their
logical content is reproduced through the fetch operations, the service
lookup being rebuilt from the circuit rosters.  The `WF`/`Nodup` hypotheses
are the key-uniqueness every parsed `BTreeMap`-backed document satisfies. -/
theorem bootstrap_matrix :
    (YamlAdminServiceStore.new ⟨none, none⟩ =
      (YamlState.default,
        ⟨some { nodes := ⟨[]⟩, circuits := ⟨[]⟩ }, some { proposals := ⟨[]⟩ }⟩)) ∧
    (∀ circuit_doc : YamlCircuitState,
      (YamlAdminServiceStore.new ⟨some circuit_doc, none⟩).2
        = ⟨some circuit_doc, some { proposals := ⟨[]⟩ }⟩ ∧
      ((YamlAdminServiceStore.new ⟨some circuit_doc, none⟩).1).proposal_state
        = { proposals := ⟨[]⟩ } ∧
      ((YamlAdminServiceStore.new ⟨some circuit_doc, none⟩).1).circuit_state
        = CircuitState.from_yaml circuit_doc ∧
      (circuit_doc.circuits.WF →
        ∀ pr ∈ circuit_doc.circuits.entries,
          (fetch_circuit pr.1 (YamlAdminServiceStore.new ⟨some circuit_doc, none⟩).1).1
            = .ok (some (Circuit.from_yaml pr.2)))) ∧
    (∀ proposal_doc : ProposalState,
      (YamlAdminServiceStore.new ⟨none, some proposal_doc⟩).2
        = ⟨some { nodes := ⟨[]⟩, circuits := ⟨[]⟩ }, some proposal_doc⟩ ∧
      ((YamlAdminServiceStore.new ⟨none, some proposal_doc⟩).1).proposal_state
        = proposal_doc ∧
      ((YamlAdminServiceStore.new ⟨none, some proposal_doc⟩).1).circuit_state
        = { nodes := ⟨[]⟩, circuits := ⟨[]⟩ } ∧
      (proposal_doc.proposals.WF →
        ∀ pr ∈ proposal_doc.proposals.entries,
          (fetch_proposal pr.1 (YamlAdminServiceStore.new ⟨none, some proposal_doc⟩).1).1
            = .ok (some pr.2))) ∧
    (∀ (circuit_doc : YamlCircuitState) (proposal_doc : ProposalState),
      (YamlAdminServiceStore.new ⟨some circuit_doc, some proposal_doc⟩).2
        = ⟨some circuit_doc, some proposal_doc⟩ ∧
      (proposal_doc.proposals.WF →
        ∀ pr ∈ proposal_doc.proposals.entries,
          (fetch_proposal pr.1
            (YamlAdminServiceStore.new ⟨some circuit_doc, some proposal_doc⟩).1).1
            = .ok (some pr.2)) ∧
      (circuit_doc.nodes.WF →
        ∀ pr ∈ circuit_doc.nodes.entries,
          (fetch_node pr.1
            (YamlAdminServiceStore.new ⟨some circuit_doc, some proposal_doc⟩).1).1
            = .ok (some pr.2)) ∧
      (circuit_doc.circuits.WF →
        ∀ pr ∈ circuit_doc.circuits.entries,
          (fetch_circuit pr.1
            (YamlAdminServiceStore.new ⟨some circuit_doc, some proposal_doc⟩).1).1
            = .ok (some (Circuit.from_yaml pr.2))) ∧
      (circuit_doc.circuits.WF →
        ∀ pr ∈ circuit_doc.circuits.entries,
          ((Circuit.from_yaml pr.2).roster.map Service.service_id).Nodup →
          ∀ s ∈ (Circuit.from_yaml pr.2).roster,
            (fetch_service ⟨s.service_id, pr.1⟩
              (YamlAdminServiceStore.new ⟨some circuit_doc, some proposal_doc⟩).1).1
              = .ok (some s))) := by
  refine ⟨rfl, ?_, ?_, ?_⟩
  · intro circuit_doc
    refine ⟨rfl, rfl, rfl, ?_⟩
    intro hWF pr hpr
    simp only [YamlAdminServiceStore.new, read_circuit_state_model, fetch_circuit]
    rw [get_circuits_from_yaml circuit_doc hWF pr hpr]
  · intro proposal_doc
    refine ⟨rfl, rfl, rfl, ?_⟩
    intro hWF pr hpr
    simp only [YamlAdminServiceStore.new, read_proposal_state_model, fetch_proposal]
    rw [Bmap.get_of_mem_nodup proposal_doc.proposals hWF pr.1 pr.2 hpr]
  · intro circuit_doc proposal_doc
    refine ⟨rfl, ?_, ?_, ?_, ?_⟩
    · intro hWF pr hpr
      simp only [YamlAdminServiceStore.new, read_state_model,
        read_proposal_state_model, read_circuit_state_model, fetch_proposal]
      rw [Bmap.get_of_mem_nodup proposal_doc.proposals hWF pr.1 pr.2 hpr]
    · intro hWF pr hpr
      simp only [YamlAdminServiceStore.new, read_state_model,
        read_proposal_state_model, read_circuit_state_model, fetch_node,
        CircuitState.from_yaml]
      rw [Bmap.get_of_mem_nodup circuit_doc.nodes hWF pr.1 pr.2 hpr]
    · intro hWF pr hpr
      simp only [YamlAdminServiceStore.new, read_state_model,
        read_proposal_state_model, read_circuit_state_model, fetch_circuit]
      rw [get_circuits_from_yaml circuit_doc hWF pr hpr]
    · intro hWF pr hpr hros s hs
      have hkeys : ((circuit_doc.circuits.entries.map
          (fun p => (p.1, Circuit.from_yaml p.2))).map Prod.fst).Nodup := by
        rw [map_fst_map_value]; exact hWF
      have hentries : (CircuitState.from_yaml circuit_doc).circuits.entries
          = circuit_doc.circuits.entries.map (fun p => (p.1, Circuit.from_yaml p.2)) := by
        simp only [CircuitState.from_yaml]
        rw [Bmap.collect_of_nodup _ hkeys]
      have hmem : (pr.1, Circuit.from_yaml pr.2)
          ∈ circuit_doc.circuits.entries.map (fun p => (p.1, Circuit.from_yaml p.2)) :=
        List.mem_map_of_mem _ hpr
      simp only [YamlAdminServiceStore.new, read_state_model,
        read_proposal_state_model, read_circuit_state_model, fetch_service]
      rw [hentries, get_build_directory_mem _ _ hkeys pr.1 (Circuit.from_yaml pr.2)
        hmem hros s hs]

/-- Concrete wire-shape circuit fixture. -/
def ycircA : YamlCircuit := YamlCircuit.from_circuit circA

/-- Concrete circuit file document fixture. -/
def cDoc : YamlCircuitState :=
  { nodes := ⟨[("acme-node-000", nodeA)]⟩
    circuits := ⟨[("WBKLF-AAAAA", ycircA)]⟩ }

/-- Concrete proposal file document fixture. -/
def pDoc : ProposalState := { proposals := ⟨[("WBKLF-PPPPP", propP)]⟩ }

/-- C5 witness: both-files construction on the concrete documents makes the
stored circuit fetchable as its converted value. -/
theorem bootstrap_matrix_witness :
    cDoc.circuits.WF ∧
    (fetch_circuit "WBKLF-AAAAA"
      (YamlAdminServiceStore.new ⟨some cDoc, some pDoc⟩).1).1
      = .ok (some (Circuit.from_yaml ycircA)) :=
  ⟨by decide,
   (bootstrap_matrix.2.2.2 cDoc pDoc).2.2.2.1 (by decide)
     ("WBKLF-AAAAA", ycircA) (by decide)⟩
